import Mathlib

/-
Verification of the Dynamic Quote Generator client script
(src/dom-manipulation/script.js, lines 1-353, the canonical Task-3 variant).

The script is a browser page: its data lives in a global quotes array, in the
localStorage slots for the serialized collection and for the active category
filter, in a sessionStorage slot for the last viewed quote, and in a few DOM
elements (the quote display, the category select, the sync status banner).
The embedding below gathers exactly that state into AppState and renders each
top-level function of the script as a state transformer.

Modelling conventions, each noted again at its definition:
  - JavaScript values that flow through JSON.parse / JSON.stringify are
    modelled by the inductive Json below (null, booleans, numbers, strings,
    arrays, objects with insertion-ordered fields).  JSON.stringify is
    injective on this model (two structurally different values print
    differently), so a comparison of stringified text is modelled as
    structural equality of Json values, and a well-formed stored string is
    represented by the Json value it parses to (StoredText.json), while a
    string that is not valid JSON is StoredText.notJson.
  - Math.floor(Math.random() * n) is an arbitrary in-range index: functions
    that pick one take a parameter r : Nat and use r % n, which ranges over
    every possible index as r does.
  - alert(...) is modelled by appending the message to AppState.alerts;
    console.log and the details of DOM node construction are not observable
    state and are dropped.
  - async/await: the script is single-threaded and each modelled function is
    one synchronous run to completion; an await that rejects makes the
    enclosing async function reject, modelled by an Except result.  The
    fire-and-forget syncQuotes() calls at the end of addQuote and of
    the import handler suspend at their first await until the caller has
    returned, so they are modelled as a separate reconciliation cycle
    (syncQuotes) rather than folded into the caller.
-/

/-- JSON values as produced by JSON.parse: objects keep their fields in
insertion order.  JSON.parse collapses duplicate keys (last one wins), so
parsed objects are modelled with their final field list and property lookup
takes the first match. -/
inductive Json where
  | null : Json
  | bool (b : Bool) : Json
  | num (n : Int) : Json
  | str (s : String) : Json
  | arr (elems : List Json) : Json
  | obj (fields : List (String × Json)) : Json
deriving Repr

namespace Json

/-
Structural equality of parsed values must be decidable: the script compares
serialized snapshots by string equality, and JSON.stringify is injective on
this model, so that comparison is structural equality of values.  No deriving
handler covers the two nested list positions, hence the hand-rolled test
below, one mutual group for values, element lists and field lists.
-/

mutual

def jsonEq (a b : Json) : Bool :=
  match a, b with
  | null, null => true
  | num x, num y => decide (x = y)
  | str x, str y => decide (x = y)
  | bool x, bool y => decide (x = y)
  | arr xs, arr ys => jsonEqList xs ys
  | obj fs, obj gs => jsonEqFields fs gs
  | _, _ => false

def jsonEqList (xs ys : List Json) : Bool :=
  match xs, ys with
  | [], [] => true
  | x :: xs, y :: ys => jsonEq x y && jsonEqList xs ys
  | _, _ => false

def jsonEqFields (fs gs : List (String × Json)) : Bool :=
  match fs, gs with
  | [], [] => true
  | f :: fs, g :: gs => decide (f.1 = g.1) && jsonEq f.2 g.2 && jsonEqFields fs gs
  | _, _ => false

end

mutual

/-- The hand-rolled test decides structural equality of values. -/
theorem jsonEq_iff : (a b : Json) → (jsonEq a b = true ↔ a = b)
  | null, b => by cases b <;> simp [jsonEq]
  | bool x, b => by cases b <;> simp [jsonEq]
  | num x, b => by cases b <;> simp [jsonEq]
  | str x, b => by cases b <;> simp [jsonEq]
  | arr xs, b => by
      cases b <;> simp only [jsonEq] <;> simp
      exact jsonEqList_iff xs _
  | obj fs, b => by
      cases b <;> simp only [jsonEq] <;> simp
      exact jsonEqFields_iff fs _

/-- The elementwise test decides equality of element lists. -/
theorem jsonEqList_iff : (xs ys : List Json) → (jsonEqList xs ys = true ↔ xs = ys)
  | [], ys => by cases ys <;> simp [jsonEqList]
  | x :: xs, [] => by simp [jsonEqList]
  | x :: xs, y :: ys => by
      simp [jsonEqList, jsonEq_iff x y, jsonEqList_iff xs ys]

/-- The fieldwise test decides equality of field lists. -/
theorem jsonEqFields_iff : (fs gs : List (String × Json)) → (jsonEqFields fs gs = true ↔ fs = gs)
  | [], gs => by cases gs <;> simp [jsonEqFields]
  | f :: fs, [] => by simp [jsonEqFields]
  | f :: fs, g :: gs => by
      simp [jsonEqFields, jsonEq_iff f.2 g.2, jsonEqFields_iff fs gs, Prod.ext_iff, and_assoc]

end

instance : DecidableEq Json := fun a b =>
  decidable_of_iff (jsonEq a b = true) (jsonEq_iff a b)

/-- JavaScript property access q.k on a parsed value: the field value for an
object that has the field, undefined (none) for an object that lacks it and
for non-object primitives.  (On null the access would throw a TypeError; the
only place the script accesses a property of an arbitrary parsed value is
the import validation, where both the thrown TypeError and a failed check
end in an alert with no state change, so null is routed through none.) -/
def getField : Json → String → Option Json
  | obj fields, k => fields.lookup k
  | _, _ => none

/-- JavaScript truthiness of a property-access result: undefined, null,
false, 0 and the empty string are falsy, everything else is truthy. -/
def truthy : Option Json → Bool
  | Option.none => false
  | Option.some null => false
  | Option.some (bool b) => b
  | Option.some (num n) => n != 0
  | Option.some (str s) => s != ""
  | Option.some (arr _) => true
  | Option.some (obj _) => true

/-- The .length property of a parsed value: defined on arrays, undefined
(none) otherwise. -/
def lengthProp : Json → Option Nat
  | arr xs => some xs.length
  | _ => none

end Json

/-- Characters removed by String.prototype.trim (the ASCII whitespace the
script can meet; trim also strips rarer Unicode space characters, which no
value in this development contains). -/
def isJsWhitespace (c : Char) : Bool :=
  c == ' ' || c == '\t' || c == '\n' || c == '\r' || c == '\x0b' || c == '\x0c'

/-- String.prototype.trim: drop leading and trailing whitespace. -/
def jsTrim (s : String) : String :=
  String.mk (((s.data.dropWhile isJsWhitespace).reverse.dropWhile isJsWhitespace).reverse)

/-- One localStorage / file text: either a string that is valid JSON,
represented by the value it parses to, or a string that is not valid JSON,
on which JSON.parse throws. -/
inductive StoredText where
  | json (j : Json) : StoredText
  | notJson (s : String) : StoredText
deriving Repr, DecidableEq

/-- JSON.parse on a stored text: returns the parsed value, or throws (the
error case) when the text is not valid JSON. -/
def jsonParse : StoredText → Except String Json
  | StoredText.json j => Except.ok j
  | StoredText.notJson s => Except.error ("Unexpected token in JSON input: " ++ s)

/-- Contents of the quote display element, abstracted to what the script
writes into it. -/
inductive Display where
  | initial : Display
  | emptyMessage (category : String) : Display
  | quoteCard (q : Json) : Display
deriving Repr, DecidableEq

/-- The observable state of the page: the global quotes array, the two
localStorage slots (LOCAL_STORAGE_KEY and LOCAL_STORAGE_FILTER_KEY), the
sessionStorage slot (SESSION_STORAGE_KEY), the category select value, the
quote display, the sync status banner, and the alerts raised so far.
A storedQuotes of none covers both an absent key (getItem returns null) and
an empty-string value, which are equally falsy in the load check. -/
structure AppState where
  quotes : List Json
  storedQuotes : Option StoredText
  storedFilter : Option String
  sessionLast : Option Json
  selectedCategory : String
  display : Display
  syncStatus : String
  alerts : List String
deriving Repr, DecidableEq

/-- MOCK_SERVER_DATA: the canned canonical dataset. -/
def MOCK_SERVER_DATA : List Json :=
  [ Json.obj [("id", Json.num 101),
      ("text", Json.str "Server Quote: Conflict is inevitable, but combat is optional."),
      ("category", Json.str "Philosophy")],
    Json.obj [("id", Json.num 102),
      ("text", Json.str "Server Quote: Sync your data, sync your life."),
      ("category", Json.str "Technology")] ]

/-- loadQuotes: reads the stored collection text; an absent (or empty, hence
falsy) value yields MOCK_SERVER_DATA, otherwise the text is given to
JSON.parse, whose thrown error propagates to the caller (the error case).
The updateGlobal flag of the source only copies this return value into the
global array; the returned value itself is what the claims are about. -/
def loadQuotes : Option StoredText → Except String Json
  | none => Except.ok (Json.arr MOCK_SERVER_DATA)
  | some t => jsonParse t

/-- saveQuotes: overwrites the stored collection with
JSON.stringify(quotes); the written text is represented by the value it
parses back to. -/
def saveQuotes (st : AppState) : AppState :=
  { st with storedQuotes := some (StoredText.json (Json.arr st.quotes)) }

/-- One step of building new Set(...): keep the first occurrence of each
value, in insertion order. -/
def insertUnique (seen : List (Option Json)) (v : Option Json) : List (Option Json) :=
  if v ∈ seen then seen else seen ++ [v]

/-- new Set(quotes.map(quote => quote.category)), as the insertion-ordered
list of distinct category property values (undefined, as none, when a quote
lacks the field). -/
def uniqueCategories (quotes : List Json) : List (Option Json) :=
  (quotes.map (fun q => Json.getField q "category")).foldl insertUnique []

/-- populateCategories: rebuilds the dropdown options from the distinct
categories, then restores the saved filter selection: the stored filter is
kept as the select value only when it is truthy (present and non-empty) and
occurs among the distinct categories; otherwise the value falls back to all.
The option elements themselves are DOM construction; the state effect is the
resulting select value. -/
def populateCategories (st : AppState) : AppState :=
  let uniqueCats := uniqueCategories st.quotes
  let sel :=
    match st.storedFilter with
    | some lastFilter =>
        if lastFilter ≠ "" ∧ some (Json.str lastFilter) ∈ uniqueCats then lastFilter else "all"
    | none => "all"
  { st with selectedCategory := sel }

/-- quote.category === selectedCategory: strict equality of the category
property value with the selected string, true exactly when the field holds
that very string (undefined or a non-string value never equals a string). -/
def hasCategory (c : String) (q : Json) : Bool :=
  match Json.getField q "category" with
  | some (Json.str s) => s == c
  | _ => false

/-- The filtering expression of filterQuotes: the full collection for the
all sentinel, otherwise quotes.filter(quote => quote.category === c). -/
def applyFilter (quotes : List Json) (selectedCategory : String) : List Json :=
  if selectedCategory == "all" then quotes
  else quotes.filter (hasCategory selectedCategory)

/-- showRandomQuote(quotesToDisplay): an empty list renders the empty-state
message and returns at once; otherwise an index is drawn (r % length models
Math.floor(Math.random() * length)), the picked quote is written to the
session slot and rendered. -/
def showRandomQuote (st : AppState) (quotesToDisplay : List Json) (r : Nat) : AppState :=
  if h : quotesToDisplay = [] then
    { st with display := Display.emptyMessage st.selectedCategory }
  else
    let quote := quotesToDisplay.get
      ⟨r % quotesToDisplay.length, Nat.mod_lt r (List.length_pos.mpr h)⟩
    { st with sessionLast := some quote, display := Display.quoteCard quote }

/-- filterQuotes: persists the current select value as the active filter,
narrows the collection by it and displays a random quote of the result. -/
def filterQuotes (st : AppState) (r : Nat) : AppState :=
  let selectedCategory := st.selectedCategory
  let st := { st with storedFilter := some selectedCategory }
  showRandomQuote st (applyFilter st.quotes selectedCategory) r

/-- The object literal pushed by addQuote. -/
def mkQuote (text category : String) : Json :=
  Json.obj [("text", Json.str text), ("category", Json.str category)]

/-- addQuote: trims both inputs, and when both remain non-empty (truthy)
pushes the new entry, persists, repopulates the categories, updates the
status banner and re-renders through filterQuotes; otherwise raises the
validation alert and changes nothing.  The trailing fire-and-forget
syncQuotes() suspends at its first await until addQuote has returned and is
modelled as a separate reconciliation cycle. -/
def addQuote (st : AppState) (textInput categoryInput : String) (r : Nat) : AppState :=
  let text := jsTrim textInput
  let category := jsTrim categoryInput
  if text ≠ "" ∧ category ≠ "" then
    let st := { st with quotes := st.quotes ++ [mkQuote text category] }
    let st := saveQuotes st
    let st := populateCategories st
    let st := { st with syncStatus := "Local change detected. Triggering sync..." }
    filterQuotes st r
  else
    { st with alerts := st.alerts ++ ["Please enter both the quote text and the category."] }

/-- The per-entry check of the import validation:
q.text && q.category under JavaScript truthiness. -/
def importEntryOk (q : Json) : Bool :=
  Json.truthy (Json.getField q "text") && Json.truthy (Json.getField q "category")

/-- importFromJsonFile, as its onload handler applied to the file text:
JSON.parse failure lands in the catch alert; a parsed non-array or an array
with an entry failing the truthiness validation raises the rejection alert;
a validated array is appended wholesale, persisted and re-rendered.  The
trailing syncQuotes() is again a separate cycle. -/
def importFromJsonFile (st : AppState) (fileText : StoredText) (r : Nat) : AppState :=
  match jsonParse fileText with
  | Except.error _ =>
      { st with alerts := st.alerts ++
          ["Error parsing JSON file. Please ensure the file format is correct."] }
  | Except.ok j =>
      match j with
      | Json.arr importedQuotes =>
          if importedQuotes.all importEntryOk then
            let st := { st with quotes := st.quotes ++ importedQuotes }
            let st := saveQuotes st
            let st := populateCategories st
            let st := filterQuotes st r
            { st with alerts := st.alerts ++
                ["Successfully imported " ++ toString importedQuotes.length ++
                 " quotes! Triggering sync."] }
          else
            { st with alerts := st.alerts ++
                ["Error: Imported file does not contain a valid array of quotes (text and category are required)."] }
      | _ =>
          { st with alerts := st.alerts ++
              ["Error: Imported file does not contain a valid array of quotes (text and category are required)."] }

/-- exportToJsonFile: offers JSON.stringify(quotes, null, 2) as a download
and raises the success alert.  The pretty-printing whitespace does not change
the value the text parses back to, so the produced file is represented by
StoredText.json of the collection. -/
def exportToJsonFile (st : AppState) : StoredText × AppState :=
  (StoredText.json (Json.arr st.quotes),
   { st with alerts := st.alerts ++ ["Quotes exported successfully!"] })

/-- The status banner text set by fetchQuotesFromServer before it awaits. -/
def fetchStatusMessage : String := "Fetching data from server using mock API..."

/-- fetchQuotesFromServer: sets the status banner, awaits the artificial
delay and returns MOCK_SERVER_DATA.  As written it cannot reject; the Except
records what a rejection at the awaited point would hand the caller. -/
def fetchQuotesFromServer : Except String (List Json) := Except.ok MOCK_SERVER_DATA

/-- serverQuotes.length - localQuotes.length, as interpolated into the
success status message; on a non-array local value the JavaScript
subtraction yields NaN. -/
def updatesReceived (serverQuotes : List Json) (localQuotes : Json) : String :=
  match Json.lengthProp localQuotes with
  | some n => toString ((serverQuotes.length : Int) - (n : Int))
  | none => "NaN"

/-- The status banner text of the replacing branch of syncQuotes. -/
def syncReplacedMessage (serverQuotes : List Json) (localQuotes : Json) : String :=
  "Sync complete. **" ++ updatesReceived serverQuotes localQuotes ++
    "** updates received. Server data took precedence."

/-- The status banner text of the no-difference branch of syncQuotes. -/
def syncUpToDateMessage : String :=
  "Sync complete. Local data is up-to-date with the server."

/-- syncQuotes with the outcome of the awaited fetch as a parameter: the ok
case is what fetchQuotesFromServer actually returns, the error case is the
counterfactual in which the awaited fetch rejects.  syncQuotes contains no
try/catch, so a rejection of the fetch (or of the JSON.parse inside the
loadQuotes call) aborts the cycle right there: the second component records
the rejection escaping the async function, with the banner still showing the
pre-failure fetch message.  In the completing cycle the canonical snapshot is
compared with the freshly loaded local snapshot by length and by stringified
text (structural equality, by injectivity of stringify on the model): a
difference makes the server data replace the collection wholesale, persisted
by saveQuotes, followed by the UI refresh; equality only updates the banner. -/
def syncQuotesWith (st : AppState) (fetched : Except String (List Json)) (r : Nat) :
    AppState × Except String Unit :=
  let st := { st with syncStatus := "Simulating post/sync of local changes..." }
  let st := { st with syncStatus := fetchStatusMessage }
  match fetched with
  | Except.error e => (st, Except.error e)
  | Except.ok serverQuotes =>
    match loadQuotes st.storedQuotes with
    | Except.error e => (st, Except.error e)
    | Except.ok localQuotes =>
      if Json.lengthProp (Json.arr serverQuotes) ≠ Json.lengthProp localQuotes ∨
          Json.arr serverQuotes ≠ localQuotes then
        let st := { st with quotes := serverQuotes }
        let st := saveQuotes st
        let st := { st with syncStatus := syncReplacedMessage serverQuotes localQuotes }
        let st := populateCategories st
        let st := filterQuotes st r
        (st, Except.ok ())
      else
        ({ st with syncStatus := syncUpToDateMessage }, Except.ok ())

/-- syncQuotes: one reconciliation cycle, with the fetch resolving as the
source has it written. -/
def syncQuotes (st : AppState) (r : Nat) : AppState × Except String Unit :=
  syncQuotesWith st fetchQuotesFromServer r

/-- A concrete page state used to instantiate theorems on. -/
def demoState : AppState :=
  { quotes := [mkQuote "The journey begins" "Life"]
    storedQuotes := some (StoredText.json (Json.arr [mkQuote "The journey begins" "Life"]))
    storedFilter := none
    sessionLast := none
    selectedCategory := "all"
    display := Display.initial
    syncStatus := ""
    alerts := [] }

/-
Supporting lemmas about the embedded operations.
-/

/-- The first character surviving dropWhile fails the predicate. -/
theorem head?_dropWhile_false {p : Char → Bool} {l : List Char} {c : Char}
    (h : (l.dropWhile p).head? = some c) : p c = false := by
  have hx := List.head?_dropWhile_not p l
  rw [h] at hx
  exact hx

/-- The last element of a non-empty dropWhile result is the last element of
the list it was taken from. -/
theorem getLast?_dropWhile {p : Char → Bool} {l : List Char}
    (h : l.dropWhile p ≠ []) : (l.dropWhile p).getLast? = l.getLast? := by
  obtain ⟨t, ht⟩ := List.dropWhile_suffix (l := l) p
  conv_rhs => rw [← ht]
  rw [List.getLast?_append_of_ne_nil t h]

/-- A trimmed string never starts with whitespace. -/
theorem jsTrim_head (s : String) (c : Char)
    (h : (jsTrim s).data.head? = some c) : isJsWhitespace c = false := by
  unfold jsTrim at h
  rw [show (String.mk ((((s.data.dropWhile isJsWhitespace).reverse.dropWhile isJsWhitespace)).reverse)).data
      = (((s.data.dropWhile isJsWhitespace).reverse.dropWhile isJsWhitespace)).reverse from rfl] at h
  rw [List.head?_reverse] at h
  set a := s.data.dropWhile isJsWhitespace with ha
  have hne : a.reverse.dropWhile isJsWhitespace ≠ [] := by
    intro hnil
    rw [hnil] at h
    simp at h
  rw [getLast?_dropWhile hne, List.getLast?_reverse] at h
  exact head?_dropWhile_false (ha ▸ h)

/-- A trimmed string never ends with whitespace. -/
theorem jsTrim_getLast (s : String) (c : Char)
    (h : (jsTrim s).data.getLast? = some c) : isJsWhitespace c = false := by
  unfold jsTrim at h
  rw [show (String.mk ((((s.data.dropWhile isJsWhitespace).reverse.dropWhile isJsWhitespace)).reverse)).data
      = (((s.data.dropWhile isJsWhitespace).reverse.dropWhile isJsWhitespace)).reverse from rfl] at h
  rw [List.getLast?_reverse] at h
  exact head?_dropWhile_false h

/-- A string whose characters are all whitespace trims to the empty string. -/
theorem jsTrim_all_whitespace (s : String)
    (h : ∀ c ∈ s.data, isJsWhitespace c = true) : jsTrim s = "" := by
  unfold jsTrim
  rw [List.dropWhile_eq_nil_iff.mpr h]
  rfl

theorem mem_insertUnique (seen : List (Option Json)) (v x : Option Json) :
    x ∈ insertUnique seen v ↔ x ∈ seen ∨ x = v := by
  unfold insertUnique
  split
  · rename_i hv
    constructor
    · exact fun hx => Or.inl hx
    · rintro (hx | rfl)
      · exact hx
      · exact hv
  · simp

theorem mem_foldl_insertUnique (l : List (Option Json)) (acc : List (Option Json))
    (x : Option Json) : x ∈ l.foldl insertUnique acc ↔ x ∈ acc ∨ x ∈ l := by
  induction l generalizing acc with
  | nil => simp
  | cons a l ih =>
      rw [List.foldl_cons, ih, mem_insertUnique]
      simp [or_assoc]

/-- Membership in the category set is membership among the category property
values of the collection. -/
theorem mem_uniqueCategories (quotes : List Json) (x : Option Json) :
    x ∈ uniqueCategories quotes ↔ x ∈ quotes.map (fun q => Json.getField q "category") := by
  unfold uniqueCategories
  rw [mem_foldl_insertUnique]
  simp

theorem showRandomQuote_quotes (st : AppState) (qs : List Json) (r : Nat) :
    (showRandomQuote st qs r).quotes = st.quotes := by
  unfold showRandomQuote
  split <;> rfl

theorem showRandomQuote_storedQuotes (st : AppState) (qs : List Json) (r : Nat) :
    (showRandomQuote st qs r).storedQuotes = st.storedQuotes := by
  unfold showRandomQuote
  split <;> rfl

theorem showRandomQuote_storedFilter (st : AppState) (qs : List Json) (r : Nat) :
    (showRandomQuote st qs r).storedFilter = st.storedFilter := by
  unfold showRandomQuote
  split <;> rfl

theorem showRandomQuote_alerts (st : AppState) (qs : List Json) (r : Nat) :
    (showRandomQuote st qs r).alerts = st.alerts := by
  unfold showRandomQuote
  split <;> rfl

theorem filterQuotes_quotes (st : AppState) (r : Nat) :
    (filterQuotes st r).quotes = st.quotes := by
  unfold filterQuotes
  rw [showRandomQuote_quotes]

theorem filterQuotes_storedQuotes (st : AppState) (r : Nat) :
    (filterQuotes st r).storedQuotes = st.storedQuotes := by
  unfold filterQuotes
  rw [showRandomQuote_storedQuotes]

theorem filterQuotes_alerts (st : AppState) (r : Nat) :
    (filterQuotes st r).alerts = st.alerts := by
  unfold filterQuotes
  rw [showRandomQuote_alerts]

theorem populateCategories_quotes (st : AppState) :
    (populateCategories st).quotes = st.quotes := rfl

theorem populateCategories_storedQuotes (st : AppState) :
    (populateCategories st).storedQuotes = st.storedQuotes := rfl

theorem populateCategories_alerts (st : AppState) :
    (populateCategories st).alerts = st.alerts := rfl

theorem saveQuotes_quotes (st : AppState) : (saveQuotes st).quotes = st.quotes := rfl

/-- A validated array import appends the whole array to the collection and
persists the appended collection. -/
theorem importFromJsonFile_append (st : AppState) (entries : List Json) (r : Nat)
    (hall : entries.all importEntryOk = true) :
    (importFromJsonFile st (StoredText.json (Json.arr entries)) r).quotes =
      st.quotes ++ entries ∧
    (importFromJsonFile st (StoredText.json (Json.arr entries)) r).storedQuotes =
      some (StoredText.json (Json.arr (st.quotes ++ entries))) := by
  simp only [importFromJsonFile, jsonParse]
  rw [if_pos hall]
  simp only [filterQuotes_quotes, filterQuotes_storedQuotes, populateCategories_quotes,
    populateCategories_storedQuotes, saveQuotes_quotes]
  exact ⟨trivial, rfl⟩

/-- A quote entry carrying non-empty string text and category fields. -/
def wellFormedQuote (q : Json) : Prop :=
  ∃ t c, Json.getField q "text" = some (Json.str t) ∧ t ≠ "" ∧
    Json.getField q "category" = some (Json.str c) ∧ c ≠ ""

/-- A well-formed entry passes the truthiness validation of the import. -/
theorem importEntryOk_of_wellFormed {q : Json} (h : wellFormedQuote q) :
    importEntryOk q = true := by
  obtain ⟨t, c, ht, htne, hc, hcne⟩ := h
  unfold importEntryOk
  rw [ht, hc]
  simp [Json.truthy, htne, hcne]

/-- C9: for every empty quote subset (post-clear, or a filter with zero
results) the presenter renders the explicit empty-state message and returns
without selecting: no index is drawn, the last-viewed session record is not
written, and every other state component is untouched. -/
theorem showRandomQuote_empty_state (st : AppState) (r : Nat) :
    showRandomQuote st [] r =
      { st with display := Display.emptyMessage st.selectedCategory } := by
  unfold showRandomQuote
  simp

/-- C7: the filter with the all sentinel returns the full collection
unchanged and in order, and the filter with any specific category returns
exactly the subsequence of entries whose category equals it, preserving
relative order. -/
theorem applyFilter_spec (quotes : List Json) (c : String) (hc : c ≠ "all") :
    applyFilter quotes "all" = quotes ∧
    applyFilter quotes c = quotes.filter (hasCategory c) ∧
    List.Sublist (applyFilter quotes c) quotes ∧
    (∀ q ∈ applyFilter quotes c, hasCategory c q = true) ∧
    (∀ q ∈ quotes, hasCategory c q = true → q ∈ applyFilter quotes c) := by
  have h1 : applyFilter quotes "all" = quotes := by simp [applyFilter]
  have h2 : applyFilter quotes c = quotes.filter (hasCategory c) := by
    simp [applyFilter, hc]
  refine ⟨h1, h2, ?_, ?_, ?_⟩
  · rw [h2]
    exact List.filter_sublist quotes
  · rw [h2]
    intro q hq
    exact (List.mem_filter.mp hq).2
  · rw [h2]
    intro q hq hcat
    exact List.mem_filter.mpr ⟨hq, hcat⟩

theorem applyFilter_spec_witness :
    applyFilter demoState.quotes "all" = demoState.quotes ∧
    applyFilter demoState.quotes "Life" = List.filter (hasCategory "Life") demoState.quotes := by
  have h := applyFilter_spec demoState.quotes "Life" (by decide)
  exact ⟨h.1, h.2.1⟩

/-- C2 counterexample: a reconciliation cycle whose simulated fetch rejects
is caught nowhere in syncQuotes: the rejection escapes the cycle, and the
status banner is left at the pre-failure fetch message, so the failure is not
reported via the status message. -/
theorem syncQuotes_error_escapes :
    (syncQuotesWith demoState (Except.error "Network failure") 0).2 =
      Except.error "Network failure" ∧
    (syncQuotesWith demoState (Except.error "Network failure") 0).1.syncStatus =
      fetchStatusMessage :=
  ⟨rfl, rfl⟩

/-- C2 amended: were the simulated fetch to reject, the cycle would leave the
in-memory and the persisted collection at the last known local snapshot, but
the rejection would propagate out of the cycle uncaught and the status banner
would still show the pre-failure fetch message rather than any failure
report; moreover the fetch as implemented never rejects, always resolving
with the canned dataset. -/
theorem syncQuotes_fetch_error_behavior (st : AppState) (e : String) (r : Nat) :
    (syncQuotesWith st (Except.error e) r).1.quotes = st.quotes ∧
    (syncQuotesWith st (Except.error e) r).1.storedQuotes = st.storedQuotes ∧
    (syncQuotesWith st (Except.error e) r).1.syncStatus = fetchStatusMessage ∧
    (syncQuotesWith st (Except.error e) r).2 = Except.error e ∧
    fetchQuotesFromServer = Except.ok MOCK_SERVER_DATA :=
  ⟨rfl, rfl, rfl, rfl, rfl⟩

/-- C3 counterexample: a persisted text that is present but not valid JSON
makes loadQuotes propagate the JSON.parse error: it neither falls back to
the default dataset nor returns at all. -/
theorem loadQuotes_corrupted_propagates :
    loadQuotes (some (StoredText.notJson "corrupted storage")) ≠
      Except.ok (Json.arr MOCK_SERVER_DATA) ∧
    (loadQuotes (some (StoredText.notJson "corrupted storage"))).isOk = false := by
  constructor
  · simp [loadQuotes, jsonParse]
  · rfl

/-- C3 amended: loadQuotes propagates the parse error for any persisted text
that is not valid JSON; only an absent (or empty, hence falsy) persisted
value falls back to the default canned dataset. -/
theorem loadQuotes_error_policy (s : String) :
    (∃ e, loadQuotes (some (StoredText.notJson s)) = Except.error e) ∧
    loadQuotes none = Except.ok (Json.arr MOCK_SERVER_DATA) :=
  ⟨⟨_, rfl⟩, rfl⟩

/-- C5 counterexample: addQuote trims before storing, so for the accepted
input pair with untrimmed text, the literal entry built from the inputs is
not an element of the resulting collection. -/
theorem addQuote_untrimmed_not_member :
    mkQuote "  hi  " "Life" ∉ (addQuote demoState "  hi  " "Life" 0).quotes := by
  decide

/-- C5 amended: for every input pair whose trimmed text and category are
non-empty, addQuote grows the collection from length n to exactly n + 1 and
the entry built from the trimmed text and trimmed category is an element of
the resulting collection. -/
theorem addQuote_appends (st : AppState) (t c : String) (r : Nat)
    (ht : jsTrim t ≠ "") (hc : jsTrim c ≠ "") :
    (addQuote st t c r).quotes.length = st.quotes.length + 1 ∧
    mkQuote (jsTrim t) (jsTrim c) ∈ (addQuote st t c r).quotes := by
  have hq : (addQuote st t c r).quotes = st.quotes ++ [mkQuote (jsTrim t) (jsTrim c)] := by
    unfold addQuote
    rw [if_pos ⟨ht, hc⟩, filterQuotes_quotes]
    rfl
  rw [hq]
  constructor
  · simp
  · simp

theorem addQuote_appends_witness :
    jsTrim " hope " ≠ "" ∧
    mkQuote (jsTrim " hope ") (jsTrim " Faith ") ∈
      (addQuote demoState " hope " " Faith " 0).quotes :=
  ⟨by decide, (addQuote_appends demoState " hope " " Faith " 0 (by decide) (by decide)).2⟩

/-- C10: addQuote trims both inputs before validating and storing: an input
that is all whitespace trims to the empty string, any pair with an empty
trimmed component is rejected with the validation alert and no other state
change at all, a valid pair stores and persists the entry built from the
trimmed strings, and a trimmed string never carries leading or trailing
whitespace. -/
theorem addQuote_trims (st : AppState) (t c : String) (r : Nat) :
    ((∀ ch ∈ t.data, isJsWhitespace ch = true) → jsTrim t = "") ∧
    (jsTrim t = "" ∨ jsTrim c = "" →
      addQuote st t c r =
        { st with alerts := st.alerts ++
            ["Please enter both the quote text and the category."] }) ∧
    (jsTrim t ≠ "" → jsTrim c ≠ "" →
      (addQuote st t c r).quotes = st.quotes ++ [mkQuote (jsTrim t) (jsTrim c)] ∧
      (addQuote st t c r).storedQuotes =
        some (StoredText.json (Json.arr (st.quotes ++ [mkQuote (jsTrim t) (jsTrim c)])))) ∧
    (∀ s : String, ∀ ch : Char,
      ((jsTrim s).data.head? = some ch → isJsWhitespace ch = false) ∧
      ((jsTrim s).data.getLast? = some ch → isJsWhitespace ch = false)) := by
  refine ⟨jsTrim_all_whitespace t, ?_, ?_, ?_⟩
  · intro hor
    unfold addQuote
    rw [if_neg]
    rintro ⟨ht, hc⟩
    rcases hor with h | h
    · exact ht h
    · exact hc h
  · intro ht hc
    unfold addQuote
    rw [if_pos ⟨ht, hc⟩, filterQuotes_quotes, filterQuotes_storedQuotes]
    exact ⟨rfl, rfl⟩
  · intro s ch
    exact ⟨jsTrim_head s ch, jsTrim_getLast s ch⟩

theorem addQuote_trims_witness :
    addQuote demoState "   " "x" 0 =
      { demoState with alerts := demoState.alerts ++
          ["Please enter both the quote text and the category."] } ∧
    (addQuote demoState " a " "B" 0).quotes = demoState.quotes ++ [mkQuote "a" "B"] := by
  have h1 := (addQuote_trims demoState "   " "x" 0).2.1 (Or.inl (by decide))
  have h2 := ((addQuote_trims demoState " a " "B" 0).2.2.1 (by decide) (by decide)).1
  refine ⟨h1, ?_⟩
  rwa [show jsTrim " a " = "a" from by decide, show jsTrim "B" = "B" from by decide] at h2

/-- C4 counterexample: the import validation checks truthiness rather than
string-ness: an array entry whose text field is the number 5 has no non-empty
string text, so under the claimed validation the whole import should be
rejected with no state change, yet the import accepts it and appends it to
the collection. -/
theorem importFromJsonFile_accepts_nonstring :
    (importFromJsonFile demoState
        (StoredText.json (Json.arr [Json.obj [("text", Json.num 5), ("category", Json.str "X")]]))
        0).quotes =
      demoState.quotes ++ [Json.obj [("text", Json.num 5), ("category", Json.str "X")]] ∧
    (importFromJsonFile demoState
        (StoredText.json (Json.arr [Json.obj [("text", Json.num 5), ("category", Json.str "X")]]))
        0).quotes ≠ demoState.quotes := by
  constructor
  · decide
  · decide

/-- C4 amended: the import validates each entry by JavaScript truthiness of
its text and category properties (present and neither empty string, zero,
false nor null), not by their being non-empty strings.  A parsed array whose
entries all pass is appended wholesale, in order, and persisted; an array
with any entry failing the truthiness check is rejected wholly with the
user-facing validation alert and no change to the collection or to the
persisted state; any payload that is not a parsed array (not valid JSON, or
valid JSON of another shape) is likewise rejected with a user-facing alert
and no state change. -/
theorem importFromJsonFile_validation (st : AppState) (p : StoredText) (r : Nat) :
    (∀ entries, p = StoredText.json (Json.arr entries) →
      entries.all importEntryOk = true →
        (importFromJsonFile st p r).quotes = st.quotes ++ entries ∧
        (importFromJsonFile st p r).storedQuotes =
          some (StoredText.json (Json.arr (st.quotes ++ entries)))) ∧
    (∀ entries, p = StoredText.json (Json.arr entries) →
      entries.all importEntryOk = false →
        (importFromJsonFile st p r).quotes = st.quotes ∧
        (importFromJsonFile st p r).storedQuotes = st.storedQuotes ∧
        (importFromJsonFile st p r).alerts = st.alerts ++
          ["Error: Imported file does not contain a valid array of quotes (text and category are required)."]) ∧
    ((∀ entries, p ≠ StoredText.json (Json.arr entries)) →
        (importFromJsonFile st p r).quotes = st.quotes ∧
        (importFromJsonFile st p r).storedQuotes = st.storedQuotes ∧
        (∃ m, (importFromJsonFile st p r).alerts = st.alerts ++ [m])) := by
  refine ⟨?_, ?_, ?_⟩
  · rintro entries rfl hall
    exact importFromJsonFile_append st entries r hall
  · rintro entries rfl hall
    simp only [importFromJsonFile, jsonParse]
    rw [if_neg (by simp [hall])]
    exact ⟨rfl, rfl, rfl⟩
  · intro hne
    match p with
    | StoredText.notJson s =>
        exact ⟨rfl, rfl, _, rfl⟩
    | StoredText.json (Json.arr entries) =>
        exact absurd rfl (hne entries)
    | StoredText.json Json.null => exact ⟨rfl, rfl, _, rfl⟩
    | StoredText.json (Json.bool b) => exact ⟨rfl, rfl, _, rfl⟩
    | StoredText.json (Json.num n) => exact ⟨rfl, rfl, _, rfl⟩
    | StoredText.json (Json.str s) => exact ⟨rfl, rfl, _, rfl⟩
    | StoredText.json (Json.obj fields) => exact ⟨rfl, rfl, _, rfl⟩

theorem importFromJsonFile_validation_witness :
    (importFromJsonFile demoState (StoredText.json (Json.arr [mkQuote "c" "Z"])) 0).quotes =
      demoState.quotes ++ [mkQuote "c" "Z"] :=
  ((importFromJsonFile_validation demoState
      (StoredText.json (Json.arr [mkQuote "c" "Z"])) 0).1 [mkQuote "c" "Z"] rfl (by decide)).1

/-- C6: exporting a collection whose entries all carry non-empty string text
and category fields, then importing the exported file, yields the original
collection appended to itself, both in memory and persisted — never a
replacement of the original. -/
theorem export_import_roundtrip (st : AppState) (r : Nat)
    (hwf : ∀ q ∈ st.quotes, wellFormedQuote q) :
    (importFromJsonFile (exportToJsonFile st).2 (exportToJsonFile st).1 r).quotes =
      st.quotes ++ st.quotes ∧
    (importFromJsonFile (exportToJsonFile st).2 (exportToJsonFile st).1 r).storedQuotes =
      some (StoredText.json (Json.arr (st.quotes ++ st.quotes))) := by
  have hall : st.quotes.all importEntryOk = true :=
    List.all_eq_true.mpr (fun q hq => importEntryOk_of_wellFormed (hwf q hq))
  have h := importFromJsonFile_append (exportToJsonFile st).2 st.quotes r hall
  exact h

theorem export_import_roundtrip_witness :
    (importFromJsonFile (exportToJsonFile demoState).2 (exportToJsonFile demoState).1 0).quotes =
      demoState.quotes ++ demoState.quotes := by
  refine (export_import_roundtrip demoState 0 ?_).1
  intro q hq
  simp only [demoState, List.mem_singleton] at hq
  subst hq
  exact ⟨"The journey begins", "Life", by decide, by decide, by decide, by decide⟩

/-- C8 counterexample: a state whose persisted filter is the empty string
while an empty-string category occurs in the category set of the collection:
the claim says the persisted filter is kept, but the falsy check resets the
selection to all. -/
theorem populateCategories_empty_filter_reset :
    ({ demoState with
        quotes := [Json.obj [("text", Json.str "a"), ("category", Json.str "")]],
        storedFilter := some "" } : AppState).storedFilter = some "" ∧
    some (Json.str "") ∈ uniqueCategories
      [Json.obj [("text", Json.str "a"), ("category", Json.str "")]] ∧
    (populateCategories { demoState with
        quotes := [Json.obj [("text", Json.str "a"), ("category", Json.str "")]],
        storedFilter := some "" }).selectedCategory = "all" := by
  refine ⟨rfl, by decide, by decide⟩

/-- C8 amended: with a persisted filter string f, restoring the selection
resets to all whenever f does not occur among the category values of the
collection, and keeps f whenever f is non-empty and occurs among them (an
empty-string persisted filter is falsy and resets to all even when an
empty-string category is present). -/
theorem populateCategories_restore (st : AppState) (f : String)
    (hf : st.storedFilter = some f) :
    (some (Json.str f) ∉ st.quotes.map (fun q => Json.getField q "category") →
      (populateCategories st).selectedCategory = "all") ∧
    (f ≠ "" → some (Json.str f) ∈ st.quotes.map (fun q => Json.getField q "category") →
      (populateCategories st).selectedCategory = f) := by
  have hsel : (populateCategories st).selectedCategory =
      if f ≠ "" ∧ some (Json.str f) ∈ uniqueCategories st.quotes then f else "all" := by
    simp only [populateCategories, hf]
  constructor
  · intro hnot
    rw [hsel, if_neg]
    rintro ⟨hne, hmem⟩
    exact hnot ((mem_uniqueCategories _ _).mp hmem)
  · intro hne hmem
    rw [hsel, if_pos ⟨hne, (mem_uniqueCategories _ _).mpr hmem⟩]

theorem populateCategories_restore_witness :
    (populateCategories { demoState with storedFilter := some "Life" }).selectedCategory =
      "Life" ∧
    (populateCategories { demoState with storedFilter := some "Wisdom" }).selectedCategory =
      "all" :=
  ⟨(populateCategories_restore { demoState with storedFilter := some "Life" } "Life"
      rfl).2 (by decide) (by decide),
   (populateCategories_restore { demoState with storedFilter := some "Wisdom" } "Wisdom"
      rfl).1 (by decide)⟩

/-- C1: a reconciliation cycle on a loadable persisted snapshot: when the
canonical snapshot differs structurally from the local snapshot, after the
cycle both the in-memory collection and the persisted collection equal the
canonical snapshot exactly (full replace, persisted, no merge); when the two
snapshots are structurally equal, the in-memory collection and the persisted
collection are left unchanged; either way the cycle completes normally. -/
theorem syncQuotes_reconciles (st : AppState) (l : Json) (r : Nat)
    (hload : loadQuotes st.storedQuotes = Except.ok l) :
    (l ≠ Json.arr MOCK_SERVER_DATA →
      (syncQuotes st r).1.quotes = MOCK_SERVER_DATA ∧
      (syncQuotes st r).1.storedQuotes =
        some (StoredText.json (Json.arr MOCK_SERVER_DATA))) ∧
    (l = Json.arr MOCK_SERVER_DATA →
      (syncQuotes st r).1.quotes = st.quotes ∧
      (syncQuotes st r).1.storedQuotes = st.storedQuotes) ∧
    (syncQuotes st r).2 = Except.ok () := by
  have hload2 : loadQuotes ({ st with syncStatus := fetchStatusMessage } : AppState).storedQuotes
      = Except.ok l := hload
  by_cases hl : l = Json.arr MOCK_SERVER_DATA
  · have hcond : ¬ (Json.lengthProp (Json.arr MOCK_SERVER_DATA) ≠ Json.lengthProp l ∨
        Json.arr MOCK_SERVER_DATA ≠ l) := by
      rw [hl]
      simp
    refine ⟨fun hne => absurd hl hne, fun _ => ?_, ?_⟩
    · simp only [syncQuotes, syncQuotesWith, fetchQuotesFromServer]
      rw [hload2]
      simp only [if_neg hcond]
      exact ⟨by trivial, by trivial⟩
    · simp only [syncQuotes, syncQuotesWith, fetchQuotesFromServer]
      rw [hload2]
      simp only [if_neg hcond]
  · have hcond : Json.lengthProp (Json.arr MOCK_SERVER_DATA) ≠ Json.lengthProp l ∨
        Json.arr MOCK_SERVER_DATA ≠ l := Or.inr (fun h => hl h.symm)
    refine ⟨fun _ => ?_, fun heq => absurd heq hl, ?_⟩
    · simp only [syncQuotes, syncQuotesWith, fetchQuotesFromServer]
      rw [hload2]
      simp only [if_pos hcond]
      simp only [filterQuotes_quotes, filterQuotes_storedQuotes, populateCategories_quotes,
        populateCategories_storedQuotes, saveQuotes_quotes]
      exact ⟨by trivial, by trivial⟩
    · simp only [syncQuotes, syncQuotesWith, fetchQuotesFromServer]
      rw [hload2]
      simp only [if_pos hcond]

theorem syncQuotes_reconciles_witness :
    (syncQuotes demoState 0).1.quotes = MOCK_SERVER_DATA ∧
    (syncQuotes demoState 0).1.storedQuotes =
      some (StoredText.json (Json.arr MOCK_SERVER_DATA)) :=
  (syncQuotes_reconciles demoState (Json.arr [mkQuote "The journey begins" "Life"]) 0
    rfl).1 (by decide)
